import Mathlib

/-!
# Verification of the clewdr request-dispatch and credential-lifecycle core

Shallow embedding of the Rust sources:
* `src/utils/mod.rs` — top-level tag analysis (`analyze_top_level_tags`,
  `check_tags_closed`, `find_tag_end`, `find_opening_tag_end`, `remove_comments`);
* `src/services/key_actor.rs` — the credential-pool actor
  (`dispatch`, `collect`, `accept`, `delete`, `save`);
* `src/gemini_state/mod.rs` — the retry engine (`try_chat`) and the
  response-validity check (`check_empty_choices`);
* `src/api/gemini.rs` — the fake-streaming body→stream conversions
  (`convert_openai_to_stream`, `convert_gemini_to_stream`).

Machine integers are modelled as `Nat`/`Int`; timestamps as `Nat`;
fallible code returns `Option`/`Except`.  Parts of the repository that are
referenced from these files but live outside the provided sources
(`KeyStatus` in the config module, `validate_required_tags` in utils,
the `types::gemini` response types) are modelled from the specification and
marked as such in their doc comments.
-/

namespace Clewdr

/-! ## Characters: Rust `char` helpers used by the tag scanner -/

/-- ASCII lowercasing on code points: Rust `char::to_ascii_lowercase`
maps `A`–`Z` (65–90) to `a`–`z` by adding 32 and fixes everything else. -/
def lowerNat (n : Nat) : Nat :=
  if 65 ≤ n ∧ n ≤ 90 then n + 32 else n

/-- Rust `char::eq_ignore_ascii_case`: the ASCII-lowercased code points
are equal. -/
def eqIgnoreAsciiCase (a b : Char) : Bool :=
  lowerNat a.toNat = lowerNat b.toNat

/-- Rust `char::is_alphabetic`, restricted to ASCII letters (all inputs
considered in this development are ASCII). -/
def rustIsAlphabetic (c : Char) : Bool :=
  ('a' ≤ c ∧ c ≤ 'z') ∨ ('A' ≤ c ∧ c ≤ 'Z')

/-- Rust `char::is_alphanumeric`, restricted to ASCII (see above). -/
def rustIsAlphanumeric (c : Char) : Bool :=
  rustIsAlphabetic c ∨ ('0' ≤ c ∧ c ≤ '9')

/-! ## `src/utils/mod.rs`: tag matching primitives -/

/-- `find_tag_end` from `src/utils/mod.rs`: match the exact tag `tag`
(character-wise, ASCII-case-insensitively) at position `start` of `chars`;
when `tag` ends in `>` return the position of that `>`. -/
def find_tag_end (chars : List Char) (start : Nat) (tag : List Char) : Option Nat :=
  if start + tag.length > chars.length then
    none
  else if (List.range tag.length).all
      (fun i => match chars[start + i]?, tag[i]? with
        | some c, some t => eqIgnoreAsciiCase c t
        | _, _ => false) then
    if tag.getLast? = some '>' then
      some (start + tag.length - 1)
    else
      none
  else
    none

/-- Advance past a quoted attribute value: returns the index of the
closing quote, or `none` when the quote is unclosed.  `fuel`-based
structural recursion; every caller passes `chars.length + 1`, which is
enough fuel since the index advances at every step. -/
def skipQuoted (chars : List Char) (fuel i : Nat) (quote : Char) : Option Nat :=
  match fuel with
  | 0 => none
  | fuel + 1 =>
    match chars[i]? with
    | none => none
    | some c => if c = quote then some i else skipQuoted chars fuel (i + 1) quote

/-- The scan loop at the end of `find_opening_tag_end`: starting at `i`,
find the `>` closing the opening tag, skipping quoted attribute values and
rejecting self-closing `/>`. -/
def findOpeningTagCloseScan (chars : List Char) (fuel i : Nat) : Option Nat :=
  match fuel with
  | 0 => none
  | fuel + 1 =>
    match chars[i]? with
    | none => none
    | some c =>
      if c = '>' then some i
      else if c = '"' ∨ c = '\'' then
        match skipQuoted chars (chars.length + 1) (i + 1) c with
        | none => none
        | some j => findOpeningTagCloseScan chars fuel (j + 1)
      else if c = '/' then
        if chars[i + 1]? = some '>' then none
        else findOpeningTagCloseScan chars fuel (i + 1)
      else findOpeningTagCloseScan chars fuel (i + 1)

/-- `find_opening_tag_end` from `src/utils/mod.rs`: match `opening_tag`
(e.g. `<div`) at `start`, require a valid separator after the tag name
(space, tab, newline, carriage return, `>` or `/`), then locate the
closing `>` of the opening tag. -/
def find_opening_tag_end (chars : List Char) (start : Nat) (opening_tag : List Char) :
    Option Nat :=
  if start + opening_tag.length > chars.length then
    none
  else if ¬ (List.range opening_tag.length).all
      (fun i => match chars[start + i]?, opening_tag[i]? with
        | some c, some t => eqIgnoreAsciiCase c t
        | _, _ => false) then
    none
  else
    match chars[start + opening_tag.length]? with
    | some next =>
      if next = ' ' ∨ next = '\t' ∨ next = '\n' ∨ next = '\r' ∨ next = '>' ∨ next = '/' then
        findOpeningTagCloseScan chars (chars.length + 1) (start + opening_tag.length)
      else
        none
    | none => findOpeningTagCloseScan chars (chars.length + 1) (start + opening_tag.length)

/-- The tag-name scan of the non-tracked branches of `analyze_top_level_tags`:
advance `j` while the character is alphanumeric, `-` or `_`. -/
def scanName (chars : List Char) (fuel j : Nat) : Nat :=
  match fuel with
  | 0 => j
  | fuel + 1 =>
    match chars[j]? with
    | none => j
    | some c =>
      if rustIsAlphanumeric c ∨ c = '-' ∨ c = '_' then scanName chars fuel (j + 1) else j

/-- The `find the closing >` scan of the non-tracked opening branch of
`analyze_top_level_tags`: advance to the next `>` outside quoted attribute
values; on running off the end (also via an unclosed quote) stop at
`chars.length`. -/
def scanToGt (chars : List Char) (fuel j : Nat) : Nat :=
  match fuel with
  | 0 => j
  | fuel + 1 =>
    match chars[j]? with
    | none => j
    | some c =>
      if c = '>' then j
      else if c = '"' ∨ c = '\'' then
        match skipQuoted chars (chars.length + 1) (j + 1) c with
        | none => chars.length
        | some k => scanToGt chars fuel (k + 1)
      else scanToGt chars fuel (j + 1)

/-- The tracked closing-tag match loop of `analyze_top_level_tags`:
try `</tag>` via `find_tag_end` for each checked tag in order; return the
matched tag name and the next scan position `end_pos + 1`. -/
def matchTrackedClose (chars : List Char) (i : Nat) : List String → Option (String × Nat)
  | [] => none
  | t :: ts =>
    match find_tag_end chars i ("</" ++ t ++ ">").toList with
    | some e => some (t, e + 1)
    | none => matchTrackedClose chars i ts

/-- The tracked opening / self-closing match loop of
`analyze_top_level_tags`: for each checked tag in order, first try the
exact self-closing form `<tag/>` via `find_tag_end`, then the opening form
`<tag` via `find_opening_tag_end`.  Returns the tag, whether the match was
self-closing, and the next scan position. -/
def matchTrackedOpen (chars : List Char) (i : Nat) : List String → Option (String × Bool × Nat)
  | [] => none
  | t :: ts =>
    match find_tag_end chars i ("<" ++ t ++ "/>").toList with
    | some e => some (t, true, e + 1)
    | none =>
      match find_opening_tag_end chars i ("<" ++ t).toList with
      | some e => some (t, false, e + 1)
      | none => matchTrackedOpen chars i ts

/-- Insert-or-update of the `top_level_balance` map of
`analyze_top_level_tags` (`entry(..).or_insert(0)` followed by `+= d`). -/
def updateAssoc : List (String × Int) → String → Int → List (String × Int)
  | [], n, d => [(n, d)]
  | (k, v) :: rest, n, d =>
    if k = n then (k, v + d) :: rest else (k, v) :: updateAssoc rest n d

/-- The main `while i < chars.len()` loop of `analyze_top_level_tags` from
`src/utils/mod.rs`.  `depth` is the `nesting_depth : i32` counter,
`result` the ordered `(tag, is_balanced)` record of top-level tags, and
`balance` the `top_level_balance` opening-minus-closing count per
top-level tag.  Returns the loop's final `result` and `balance`.
Fuelled structurally; the index advances at every iteration, so
`chars.length + 1` fuel always reaches the end of the input. -/
def analyzeLoop (chars : List Char) (tags : List String) (fuel i : Nat) (depth : Int)
    (result : List (String × Bool)) (balance : List (String × Int)) :
    List (String × Bool) × List (String × Int) :=
  match fuel with
  | 0 => (result, balance)
  | fuel + 1 =>
    match chars[i]? with
    | none => (result, balance)
    | some c =>
      if c = '<' then
        if chars[i + 1]? = some '/' then
          match matchTrackedClose chars i tags with
          | some (tag, ni) =>
            if depth - 1 = 0 then
              analyzeLoop chars tags fuel ni (depth - 1)
                (if result.any (fun p => p.1 = tag) then result else result ++ [(tag, false)])
                (updateAssoc balance tag (-1))
            else
              analyzeLoop chars tags fuel ni (depth - 1) result balance
          | none =>
            match chars[i + 2]? with
            | some c2 =>
              if rustIsAlphabetic c2 then
                if chars[scanName chars (chars.length + 1) (i + 2)]? = some '>' then
                  analyzeLoop chars tags fuel (scanName chars (chars.length + 1) (i + 2) + 1)
                    (if depth > 0 then depth - 1 else depth) result balance
                else
                  analyzeLoop chars tags fuel (i + 1) depth result balance
              else
                analyzeLoop chars tags fuel (i + 1) depth result balance
            | none => analyzeLoop chars tags fuel (i + 1) depth result balance
        else
          match matchTrackedOpen chars i tags with
          | some (tag, isSelfClosing, ni) =>
            if isSelfClosing then
              if depth = 0 then
                analyzeLoop chars tags fuel ni depth
                  (if result.any (fun p => p.1 = tag) then result else result ++ [(tag, true)])
                  balance
              else
                analyzeLoop chars tags fuel ni depth result balance
            else
              if depth = 0 then
                analyzeLoop chars tags fuel ni (depth + 1)
                  (if result.any (fun p => p.1 = tag) then result else result ++ [(tag, false)])
                  (updateAssoc balance tag 1)
              else
                analyzeLoop chars tags fuel ni (depth + 1) result balance
          | none =>
            match chars[i + 1]? with
            | some c1 =>
              if rustIsAlphabetic c1 then
                if chars[scanToGt chars (chars.length + 1)
                    (scanName chars (chars.length + 1) (i + 1))]? = some '>' then
                  if scanToGt chars (chars.length + 1)
                      (scanName chars (chars.length + 1) (i + 1)) > 0 ∧
                      chars[scanToGt chars (chars.length + 1)
                        (scanName chars (chars.length + 1) (i + 1)) - 1]? = some '/' then
                    analyzeLoop chars tags fuel
                      (scanToGt chars (chars.length + 1)
                        (scanName chars (chars.length + 1) (i + 1)) + 1)
                      depth result balance
                  else
                    analyzeLoop chars tags fuel
                      (scanToGt chars (chars.length + 1)
                        (scanName chars (chars.length + 1) (i + 1)) + 1)
                      (depth + 1) result balance
                else
                  analyzeLoop chars tags fuel (i + 1) depth result balance
              else
                analyzeLoop chars tags fuel (i + 1) depth result balance
            | none => analyzeLoop chars tags fuel (i + 1) depth result balance
      else
        analyzeLoop chars tags fuel (i + 1) depth result balance

/-- State of the `remove_comments` character walk: outside everything,
inside a backtick-quoted span, or inside an HTML comment. -/
inductive RCMode
  | normal
  | backticks
  | comment

/-- The backtick character. -/
def backtickChar : Char := Char.ofNat 96

/-- `remove_comments` from `src/utils/mod.rs` as a three-state walk over
the character list; `none` models the early `return String::new()` taken
on an unclosed `<!--` comment.  Fuelled structurally; at least one input
character is consumed per fuel unit. -/
def removeCommentsGo (fuel : Nat) (mode : RCMode) (l : List Char) : Option (List Char) :=
  match fuel with
  | 0 => none
  | fuel + 1 =>
    match mode, l with
    | .normal, [] => some []
    | .normal, c :: rest =>
      if c = backtickChar then removeCommentsGo fuel .backticks rest
      else if c = '<' then
        if rest.head? = some '!' then
          if rest.tail.head? = some '-' then
            if rest.tail.tail.head? = some '-' then
              removeCommentsGo fuel .comment rest.tail.tail.tail
            else
              (removeCommentsGo fuel .normal rest.tail.tail).map
                (fun t => '<' :: '!' :: '-' :: t)
          else
            (removeCommentsGo fuel .normal rest.tail).map (fun t => '<' :: '!' :: t)
        else
          (removeCommentsGo fuel .normal rest).map (fun t => '<' :: t)
      else (removeCommentsGo fuel .normal rest).map (fun t => c :: t)
    | .backticks, [] => some []
    | .backticks, c :: rest =>
      if c = backtickChar then removeCommentsGo fuel .normal rest
      else removeCommentsGo fuel .backticks rest
    | .comment, [] => none
    | .comment, c :: rest =>
      if c = '-' ∧ rest.head? = some '-' then
        if rest.tail.head? = some '>' then removeCommentsGo fuel .normal rest.tail.tail
        else removeCommentsGo fuel .comment rest.tail
      else removeCommentsGo fuel .comment rest

/-- `remove_comments` from `src/utils/mod.rs`: strip HTML comments and
backtick-quoted content; an unclosed comment yields the empty string. -/
def remove_comments (content : List Char) : List Char :=
  match removeCommentsGo (content.length + 1) .normal content with
  | some l => l
  | none => []

/-- Rust `str::matches(pat).count()`: number of non-overlapping,
leftmost-first occurrences of `pat`.  Fuelled structurally. -/
def countMatchesGo (fuel : Nat) (l pat : List Char) : Nat :=
  match fuel with
  | 0 => 0
  | fuel + 1 =>
    match l with
    | [] => 0
    | _ :: rest =>
      if pat.isPrefixOf l ∧ pat ≠ [] then
        1 + countMatchesGo fuel (l.drop pat.length) pat
      else
        countMatchesGo fuel rest pat

/-- Rust `str::matches(pat).count()` at full fuel. -/
def countMatches (l pat : List Char) : Nat :=
  countMatchesGo (l.length + 1) l pat

/-- Rust `str::contains(pat)` for a nonempty pattern. -/
def containsSeq (l pat : List Char) : Bool :=
  pat.isPrefixOf l ||
    match l with
    | [] => false
    | _ :: rest => containsSeq rest pat

/-- Rust `str::trim` (ASCII whitespace, which covers every input in this
development). -/
def trimChars (l : List Char) : List Char :=
  ((l.dropWhile Char.isWhitespace).reverse.dropWhile Char.isWhitespace).reverse

/-- Rust `str::split(',')`. -/
def splitCommaGo : List Char → List Char → List (List Char)
  | [], acc => [acc.reverse]
  | c :: rest, acc =>
    if c = ',' then acc.reverse :: splitCommaGo rest [] else splitCommaGo rest (c :: acc)

/-- Split a comma-separated tag-list option as in `src/utils/mod.rs`:
`split(',')`, trim each entry, drop empties. -/
def splitTags (s : String) : List String :=
  (((splitCommaGo s.toList []).map trimChars).filter (fun t => t ≠ [])).map
    (fun l => String.mk l)

/-- `analyze_top_level_tags` from `src/utils/mod.rs`: which checked tags
appear at top level, and whether their top-level opening/closing counts
balance.  Mirrors the source: strip comments first; if the content had a
`<!--` and comment-stripping yielded the empty string, report nothing. -/
def analyze_top_level_tags (content : String) (tags_to_check : List String) :
    List (String × Bool) :=
  let contentWithoutComments := remove_comments content.toList
  if containsSeq content.toList "<!--".toList ∧ contentWithoutComments.isEmpty then
    []
  else
    let st := analyzeLoop contentWithoutComments tags_to_check
      (contentWithoutComments.length + 1) 0 0 [] []
    st.1.map (fun p =>
      match st.2.lookup p.1 with
      | some v => (p.1, v == 0)
      | none => p)

/-- `check_tags_closed` from `src/utils/mod.rs`. -/
def check_tags_closed (content tags_to_check : String) : Bool :=
  if trimChars tags_to_check.toList = [] then true
  else
    let tags := splitTags tags_to_check
    if tags.isEmpty then true
    else if containsSeq content.toList "<!--".toList ∧
        countMatches content.toList "<!--".toList ≠ countMatches content.toList "-->".toList then
      false
    else
      (analyze_top_level_tags content tags).all (fun p => p.2)

/-- `check_required_tags_exist` from `src/utils/mod.rs`. -/
def check_required_tags_exist (content required_tags : String) : Bool :=
  if trimChars required_tags.toList = [] then true
  else
    let tags := splitTags required_tags
    if tags.isEmpty then true
    else if tags.any (fun t => ¬ containsSeq content.toList ("<" ++ t).toList) then false
    else
      let analysis := analyze_top_level_tags content tags
      tags.all (fun t =>
        match analysis.find? (fun p => p.1 = t) with
        | some p => p.2
        | none => false)

/-- Two character lists that agree up to ASCII letter case, pointwise. -/
def CaseVariant (l l' : List Char) : Prop :=
  List.Forall₂ (fun a b => eqIgnoreAsciiCase a b = true) l l'

/-! ## `src/services/key_actor.rs`: the credential-pool actor -/

/-- Modelled from the spec: `KeyStatus` from the config module (not under
`src/`): the secret and an optional `cooldown_until` instant. -/
structure KeyStatus where
  key : String
  cooldown_until : Option Nat
deriving DecidableEq, Repr

/-- Modelled from the spec: Rust `KeyStatus` equality is defined solely by
the secret. -/
def keyEq (a b : KeyStatus) : Bool :=
  a.key == b.key

/-- Modelled from the spec: a Key is available iff `cooldown_until` is
absent or ≤ now. -/
def KeyStatus.is_available (now : Nat) (k : KeyStatus) : Bool :=
  match k.cooldown_until with
  | none => true
  | some t => t ≤ now

/-- Modelled from the spec: `KeyStatus::set_429_cooldown` — a fixed
configured duration `d` from `now`. -/
def set_429_cooldown (d now : Nat) (k : KeyStatus) : KeyStatus :=
  { k with cooldown_until := some (now + d) }

/-- `KeyActor::dispatch` from `src/services/key_actor.rs`: find the first
available key, remove it, push a clone to the tail, return the clone;
`none` models the `NoKeyAvailable` error. -/
def dispatch (now : Nat) (state : List KeyStatus) : Option (KeyStatus × List KeyStatus) :=
  match state.findIdx? (fun k => k.is_available now) with
  | none => none
  | some i =>
    match state[i]? with
    | none => none
    | some k => some (k, state.eraseIdx i ++ [k])

/-- `KeyActor::collect` from `src/services/key_actor.rs` (the `Return`
message): locate by secret; replace the stored entry in place; the Bool
reports whether the cooldown changed (which is when `save` runs).  An
unknown key leaves the state unchanged. -/
def collect (state : List KeyStatus) (key : KeyStatus) : List KeyStatus × Bool :=
  match state.findIdx? (fun k => keyEq k key) with
  | none => (state, false)
  | some pos =>
    match state[pos]? with
    | none => (state, false)
    | some old => (state.set pos key, old.cooldown_until != key.cooldown_until)

/-- The actor's queue together with the global config's `gemini_keys` set
(`CLEWDR_CONFIG`), which `save` synchronises with the queue via `rcu`. -/
structure ActorSt where
  queue : List KeyStatus
  cfgKeys : List KeyStatus
deriving Repr

/-- `KeyActor::save` from `src/services/key_actor.rs`: copy the queue into
the config's key set (the snapshot file write is fire-and-forget I/O and
not modelled). -/
def save (st : ActorSt) : ActorSt :=
  { st with cfgKeys := st.queue }

/-- `KeyActor::accept` from `src/services/key_actor.rs` (the `Submit`
message): no-op when the config's `gemini_keys` already contains a key
with the same secret, else append to the queue and save. -/
def accept (st : ActorSt) (key : KeyStatus) : ActorSt :=
  if st.cfgKeys.any (fun k => keyEq k key) then st
  else save { st with queue := st.queue ++ [key] }

/-- `KeyActor::delete` from `src/services/key_actor.rs` (the `Delete`
message): `retain(|k| *k != key)`; save and succeed when something was
removed, report failure otherwise. -/
def delete (st : ActorSt) (key : KeyStatus) : ActorSt × Bool :=
  let q' := st.queue.filter (fun k => ¬ keyEq k key)
  if q'.length < st.queue.length then
    (save { st with queue := q' }, true)
  else
    (st, false)

/-- A `Submit`/`Delete` request stream, for the pool-uniqueness invariant. -/
inductive PoolOp
  | submit (k : KeyStatus)
  | del (k : KeyStatus)

/-- Run a sequence of `Submit`/`Delete` messages through the actor. -/
def runOps (st : ActorSt) : List PoolOp → ActorSt
  | [] => st
  | .submit k :: ops => runOps (accept st k) ops
  | .del k :: ops => runOps (delete st k).1 ops

/-! ## `serde_json::Value` -/

/-- `serde_json::Value`. -/
inductive Json
  | null
  | bool (b : Bool)
  | num (n : Int)
  | str (s : String)
  | arr (elems : List Json)
  | obj (fields : List (String × Json))

/-- `Value` indexing `v["name"]`: the field of an object, `Null` when the
field is missing or the value is not an object. -/
def Json.index (v : Json) (name : String) : Json :=
  match v with
  | .obj fields =>
    match fields.lookup name with
    | some w => w
    | none => .null
  | _ => .null

/-- `Value::get(i)`: array element, `None` off arrays. -/
def Json.getIdx? (v : Json) (i : Nat) : Option Json :=
  match v with
  | .arr elems => elems[i]?
  | _ => none

/-- `Value::get(name)`: object field, `None` off objects. -/
def Json.getKey? (v : Json) (name : String) : Option Json :=
  match v with
  | .obj fields => fields.lookup name
  | _ => none

/-- `Value::as_str`. -/
def Json.asStr? : Json → Option String
  | .str s => some s
  | _ => none

/-- `Value::as_array`. -/
def Json.asArray? : Json → Option (List Json)
  | .arr elems => some elems
  | _ => none

/-! ## Gemini response types and the response-validity check -/

/-- Modelled from the spec: the Gemini dialect's `finishReason` values
(from `crate::types::gemini::response`, not under `src/`; only `STOP` is
distinguished by the checks). -/
inductive FinishReason
  | STOP
  | MAX_TOKENS
  | SAFETY
  | OTHER
deriving DecidableEq, Repr

/-- Modelled from the spec: one part of a candidate's content;
`Part::Text` serialises to an object with a `text` field. -/
inductive Part
  | text (s : String)
  | other
deriving DecidableEq, Repr

/-- Modelled from the spec: candidate content — an optional `parts` list. -/
structure Content where
  parts : Option (List Part)
deriving DecidableEq, Repr

/-- Modelled from the spec: a response candidate. -/
structure Candidate where
  content : Option Content
  finishReason : Option FinishReason
deriving DecidableEq, Repr

/-- Modelled from the spec: the Gemini dialect response body. -/
structure GeminiResponse where
  candidates : List Candidate
deriving DecidableEq, Repr

/-- The error kinds of `ClewdrError` relevant to the retry engine. -/
inductive CErr
  | geminiHttp (code : Nat)
  | emptyChoices
  | jsonDecode
  | tooManyRetries
  | noKeyAvailable
  | requestCancelled
  | otherFatal
deriving DecidableEq, Repr

/-- The stop set of the spec's tag-name parse: `>`, whitespace, `/`. -/
def vrtNameStop (c : Char) : Bool :=
  c = '>' ∨ c = '/' ∨ c.isWhitespace

/-- First index ≥ `j` whose character stops a tag name (or the end). -/
def vrtNameEnd (chars : List Char) (fuel j : Nat) : Nat :=
  match fuel with
  | 0 => j
  | fuel + 1 =>
    match chars[j]? with
    | none => j
    | some c => if vrtNameStop c then j else vrtNameEnd chars fuel (j + 1)

/-- First `>` at an index ≥ `j`, if any. -/
def vrtFindGt (chars : List Char) (fuel j : Nat) : Option Nat :=
  match fuel with
  | 0 => none
  | fuel + 1 =>
    match chars[j]? with
    | none => none
    | some c => if c = '>' then some j else vrtFindGt chars fuel (j + 1)

/-- Modelled from the spec: the scanner loop of `validate_required_tags`
(§4.6 of the spec; the function is imported by `gemini_state` from
`utils` but is not present under `src/`).  Walks the characters with a
depth counter and a stack of currently-open top-level tag names: an
opening tag at depth 0 is recorded and pushed; a closing tag that brings
the depth to 0 must match the stack top (else a mismatch error);
self-closing at depth 0 is recorded but not pushed.  Returns the recorded
top-level names; any still-open top-level tag at the end is an error. -/
def vrtLoop (chars : List Char) (fuel i : Nat) (depth : Nat) (stack top : List String) :
    Except String (List String) :=
  match fuel with
  | 0 => .error "out of fuel"
  | fuel + 1 =>
    match chars[i]? with
    | none =>
      if stack.isEmpty then .ok top
      else .error ("Unclosed top-level tags: " ++ String.intercalate ", " stack)
    | some c =>
      if c = '<' then
        let isClosing := chars[i + 1]? = some '/'
        let nstart := if isClosing then i + 2 else i + 1
        let nend := vrtNameEnd chars (chars.length + 1) nstart
        let name := String.mk ((chars.drop nstart).take (nend - nstart))
        match vrtFindGt chars (chars.length + 1) nend with
        | none => vrtLoop chars fuel (i + 1) depth stack top
        | some g =>
          let isSelfClosing := ¬isClosing ∧ g > 0 ∧ chars[g - 1]? = some '/'
          if isClosing then
            if depth = 1 then
              match stack with
              | s :: rest =>
                if s = name then
                  vrtLoop chars fuel (g + 1) 0 rest top
                else
                  .error ("Top-level tag mismatch: expected '</" ++ s ++
                    ">' but found '</" ++ name ++ ">'")
              | [] => vrtLoop chars fuel (g + 1) 0 [] top
            else if depth = 0 then
              vrtLoop chars fuel (g + 1) 0 stack top
            else
              vrtLoop chars fuel (g + 1) (depth - 1) stack top
          else if isSelfClosing then
            if depth = 0 then
              vrtLoop chars fuel (g + 1) depth stack
                (if top.contains name then top else top ++ [name])
            else
              vrtLoop chars fuel (g + 1) depth stack top
          else
            if depth = 0 then
              vrtLoop chars fuel (g + 1) (depth + 1) (name :: stack)
                (if top.contains name then top else top ++ [name])
            else
              vrtLoop chars fuel (g + 1) (depth + 1) stack top
      else
        vrtLoop chars fuel (i + 1) depth stack top

/-- Modelled from the spec: `validate_required_tags(text, required)` —
scan the text for top-level tags, then require every configured name to
appear in the recorded top-level set. -/
def validate_required_tags (text required : String) : Except String Unit :=
  let names := splitTags required
  match vrtLoop text.toList (text.length + 1) 0 0 [] [] with
  | .error e => .error e
  | .ok top =>
    match names.find? (fun n => ¬ top.contains n) with
    | some n => .error ("Required tag '" ++ n ++ "' not found at top level")
    | none => .ok ()

/-- Whether `validate_required_tags` rejects the text. -/
def vrtFails (text required : String) : Bool :=
  match validate_required_tags text required with
  | .error _ => true
  | .ok _ => false

/-- The text parts of the first candidate, extracted the way
`check_empty_choices` does through the serde round trip (`content` must
serialise to an object whose `parts` is an array; `Part::Text` gives a
`text` string field). -/
def Candidate.textParts (c : Candidate) : List String :=
  match c.content with
  | none => []
  | some ct =>
    match ct.parts with
    | none => []
    | some ps => ps.filterMap (fun p => match p with | .text s => some s | .other => none)

/-- `GeminiState::check_empty_choices` from `src/gemini_state/mod.rs`,
Gemini dialect, buffered (non-streaming) path.  `parsed = none` models a
body rejected by `serde_json::from_slice` (a `Decode` error, not
`EmptyChoices`). -/
def check_empty_choices_gemini (required_tags : String) (parsed : Option GeminiResponse) :
    Except CErr Unit :=
  match parsed with
  | none => .error .jsonDecode
  | some res =>
    if res.candidates.isEmpty then .error .emptyChoices
    else
      match res.candidates.head? with
      | none => .ok ()
      | some c =>
        if c.content.isNone ∧ c.finishReason ≠ some .STOP then .error .emptyChoices
        else if trimChars required_tags.toList ≠ [] ∧
            c.textParts.any (fun t => vrtFails t required_tags) then .error .emptyChoices
        else .ok ()

/-- `GeminiState::check_empty_choices` from `src/gemini_state/mod.rs`,
OpenAI dialect, buffered (non-streaming) path. -/
def check_empty_choices_openai (required_tags : String) (parsed : Option Json) :
    Except CErr Unit :=
  match parsed with
  | none => .error .jsonDecode
  | some v =>
    if (match (v.index "choices").asArray? with
        | some a => a.isEmpty
        | none => false) then .error .emptyChoices
    else if ((v.index "choices").getIdx? 0).bind
        (fun c => (c.index "finish_reason").asStr?) = some "OTHER" then .error .emptyChoices
    else
      let tagFail : Bool :=
        match ((v.index "choices").getIdx? 0).bind
            (fun c => ((c.index "message").index "content").asStr?) with
        | some mc => vrtFails mc required_tags
        | none => false
      if trimChars required_tags.toList ≠ [] ∧ tagFail then .error .emptyChoices
      else .ok ()

/-! ## `GeminiState::try_chat`: the retry engine -/

/-- What one `send_chat` call produced: a 2xx response carrying a body
(for the validity check), an upstream HTTP error (`GeminiHttpError`), or
any other (non-HTTP) error. -/
inductive SendResult (β : Type)
  | ok (body : β)
  | httpErr (code : Nat)
  | fatal (e : CErr)

/-- How one iteration of the `try_chat` loop ends. -/
inductive StepOutcome
  | success
  | retry (e : CErr)
  | fatal (e : CErr)
deriving DecidableEq, Repr

/-- One iteration of the `try_chat` loop from `src/gemini_state/mod.rs`:
a 2xx response goes through the validity check — on `Ok` the request
succeeds, on any check error the error is captured and the loop
continues; a `GeminiHttpError` files its report and continues; every
other `send_chat` error returns immediately. -/
def try_chat_step {β : Type} (check : β → Except CErr Unit) : SendResult β → StepOutcome
  | .ok body =>
    match check body with
    | .ok _ => .success
    | .error e => .retry e
  | .httpErr code => .retry (.geminiHttp code)
  | .fatal e => .fatal e

/-- The `for i in 0..max_retries + 1` loop of `try_chat`, with the
captured last error; returns the result and the number of attempts
performed. -/
def try_chat_go {β : Type} (check : β → Except CErr Unit) (outcomes : Nat → SendResult β)
    (i : Nat) (err : Option CErr) (fuel : Nat) : Except CErr Unit × Nat :=
  match fuel with
  | 0 => (.error (match err with | some e => e | none => .tooManyRetries), i)
  | fuel + 1 =>
    match try_chat_step check (outcomes i) with
    | .success => (.ok (), i + 1)
    | .fatal e => (.error e, i + 1)
    | .retry e => try_chat_go check outcomes (i + 1) (some e) fuel

/-- `GeminiState::try_chat` from `src/gemini_state/mod.rs` over an
abstract attempt oracle: at most `max_retries + 1` attempts. -/
def try_chat {β : Type} (check : β → Except CErr Unit) (max_retries : Nat)
    (outcomes : Nat → SendResult β) : Except CErr Unit × Nat :=
  try_chat_go check outcomes 0 none (max_retries + 1)

/-- Upstream behaviour for an end-to-end scenario, keyed by secret. -/
inductive Upstream
  | ok
  | http (code : Nat)

/-- `try_chat` composed with the key-pool actor, the lease/report/return
messages processed in program order: each attempt leases a key via
`dispatch` (`send_chat → request_key`), calls the upstream on the leased
secret, and files the §4.5 report against the pool before the next
attempt; `d` is the configured 429-cooldown duration.  An `Upstream.ok`
response is taken as a body that passes the validity check, so
`report_success` returns the key unchanged. -/
def try_chat_pool (d now : Nat) (upstream : String → Upstream) (pool : List KeyStatus)
    (fuel : Nat) (err : Option CErr) : Except CErr Unit × List KeyStatus :=
  match fuel with
  | 0 => (.error (match err with | some e => e | none => .tooManyRetries), pool)
  | fuel + 1 =>
    match dispatch now pool with
    | none => (.error .noKeyAvailable, pool)
    | some (k, pool1) =>
      match upstream k.key with
      | .ok => (.ok (), (collect pool1 k).1)
      | .http code =>
        if code = 429 then
          try_chat_pool d now upstream
            (collect pool1 (set_429_cooldown d now k)).1 fuel (some (.geminiHttp code))
        else if code = 400 ∨ code = 403 then
          try_chat_pool d now upstream
            (pool1.filter (fun x => ¬ keyEq x k)) fuel (some (.geminiHttp code))
        else
          try_chat_pool d now upstream pool1 fuel (some (.geminiHttp code))

/-! ## `src/api/gemini.rs`: fake-streaming body→stream conversion -/

/-- One server-sent-events frame of the conversion: either
`data: <json>\n\n` for a JSON payload, or the literal `data: [DONE]\n\n`. -/
inductive StreamFrame
  | data (payload : Json)
  | done

/-- The content extraction of `convert_openai_to_stream`:
`choices` as array → first → `message.content` as string.
`parsed = none` models a body that is not JSON. -/
def openai_extract (parsed : Option Json) : Option String :=
  match parsed with
  | none => none
  | some v =>
    ((v.index "choices").asArray?.bind List.head?).bind
      (fun c => ((c.index "message").index "content").asStr?)

/-- The single content chunk of `convert_openai_to_stream` (the complete
content, `finish_reason` null). -/
def oai_content_chunk (ts : Nat) (model content : String) : Json :=
  .obj [("id", .str ("chatcmpl-" ++ toString ts)),
        ("object", .str "chat.completion.chunk"),
        ("created", .num ts),
        ("model", .str model),
        ("choices", .arr [.obj [("delta", .obj [("content", .str content)]),
                                ("index", .num 0),
                                ("finish_reason", .null)]])]

/-- The terminal chunk of `convert_openai_to_stream`
(`finish_reason = "stop"`). -/
def oai_final_chunk (ts : Nat) (model : String) : Json :=
  .obj [("id", .str ("chatcmpl-" ++ toString ts)),
        ("object", .str "chat.completion.chunk"),
        ("created", .num ts),
        ("model", .str model),
        ("choices", .arr [.obj [("delta", .obj []),
                                ("index", .num 0),
                                ("finish_reason", .str "stop")]])]

/-- `convert_openai_to_stream` from `src/api/gemini.rs`: when the body
parses and carries first-choice message content, one content chunk, one
terminal chunk and the `[DONE]` frame; otherwise no frames at all.
`ts` is the wall-clock timestamp read inside the function. -/
def convert_openai_to_stream (parsed : Option Json) (model : String) (ts : Nat) :
    List StreamFrame :=
  match openai_extract parsed with
  | some content =>
    [.data (oai_content_chunk ts model content), .data (oai_final_chunk ts model), .done]
  | none => []

/-- The content extraction of `convert_gemini_to_stream`:
`candidates` as array → first → `content.parts[0].text` as string. -/
def gemini_extract (parsed : Option Json) : Option String :=
  match parsed with
  | none => none
  | some v =>
    (((((v.index "candidates").asArray?.bind List.head?).bind
      (fun c => c.getKey? "content")).bind
      (fun ct => ct.getKey? "parts")).bind
      (fun p => p.asArray?.bind List.head?)).bind
      (fun part => (part.getKey? "text").bind Json.asStr?)

/-- The single content chunk of `convert_gemini_to_stream`. -/
def gemini_content_chunk (content : String) : Json :=
  .obj [("candidates", .arr [.obj
    [("content", .obj [("parts", .arr [.obj [("text", .str content)]]),
                       ("role", .str "model")]),
     ("finishReason", .null),
     ("index", .num 0)]])]

/-- The terminal chunk of `convert_gemini_to_stream`
(`finishReason = "STOP"`). -/
def gemini_final_chunk : Json :=
  .obj [("candidates", .arr [.obj
    [("content", .obj [("parts", .arr [.obj [("text", .str "")]]),
                       ("role", .str "model")]),
     ("finishReason", .str "STOP"),
     ("index", .num 0)]])]

/-- `convert_gemini_to_stream` from `src/api/gemini.rs`: one content chunk
and one terminal chunk when extraction succeeds, no frames otherwise (and
no `[DONE]` in the Gemini dialect). -/
def convert_gemini_to_stream (parsed : Option Json) : List StreamFrame :=
  match gemini_extract parsed with
  | some content => [.data (gemini_content_chunk content), .data gemini_final_chunk]
  | none => []

/-- A buffered OpenAI-dialect body with one choice carrying message
content `"x"` and `finish_reason "stop"` (neither of the claim's
EmptyChoices conditions holds on it). -/
def c6Body : Json :=
  .obj [("choices", .arr [.obj
    [("message", .obj [("content", .str "x")]),
     ("finish_reason", .str "stop")]])]

/-! ## Theorems -/

theorem charEq_iff_toNat (a b : Char) : a = b ↔ a.toNat = b.toNat :=
  ⟨fun h => h ▸ rfl, fun h => Char.ext (UInt32.ext h)⟩

theorem eqIC_lowerNat {a b : Char} (h : eqIgnoreAsciiCase a b = true) :
    lowerNat a.toNat = lowerNat b.toNat := by
  simpa [eqIgnoreAsciiCase] using h

theorem eqIC_sameTest {a b : Char} (h : eqIgnoreAsciiCase a b = true) (t : Char) :
    eqIgnoreAsciiCase a t = eqIgnoreAsciiCase b t := by
  simp [eqIgnoreAsciiCase, eqIC_lowerNat h]

/-- A character that is not an ASCII letter is matched exactly by both
members of a case-variant pair. -/
theorem eqIC_nonletter_iff {a b : Char} (h : eqIgnoreAsciiCase a b = true) (s : Char)
    (hs1 : ¬(65 ≤ s.toNat ∧ s.toNat ≤ 90)) (hs2 : ¬(97 ≤ s.toNat ∧ s.toNat ≤ 122)) :
    (a = s) ↔ (b = s) := by
  have hl := eqIC_lowerNat h
  rw [charEq_iff_toNat, charEq_iff_toNat]
  unfold lowerNat at hl
  by_cases ha : 65 ≤ a.toNat ∧ a.toNat ≤ 90 <;> by_cases hb : 65 ≤ b.toNat ∧ b.toNat ≤ 90
  · rw [if_pos ha, if_pos hb] at hl
    omega
  · rw [if_pos ha, if_neg hb] at hl
    omega
  · rw [if_neg ha, if_pos hb] at hl
    omega
  · rw [if_neg ha, if_neg hb] at hl
    omega

theorem forall₂_getElem? {R : Char → Char → Prop} {l l' : List Char}
    (h : List.Forall₂ R l l') :
    ∀ n : Nat, (l[n]? = none ∧ l'[n]? = none) ∨
      ∃ a b, l[n]? = some a ∧ l'[n]? = some b ∧ R a b := by
  induction h with
  | nil =>
    intro n
    left
    simp
  | @cons a b l1 l2 hr hrec ih =>
    intro n
    cases n with
    | zero =>
      right
      exact ⟨a, b, by simp, by simp, hr⟩
    | succ m =>
      simpa using ih m

theorem caseVariant_getElem? {l l' : List Char} (h : CaseVariant l l') :
    ∀ n : Nat, (l[n]? = none ∧ l'[n]? = none) ∨
      ∃ a b, l[n]? = some a ∧ l'[n]? = some b ∧ eqIgnoreAsciiCase a b = true :=
  forall₂_getElem? h

theorem all_congr_mem {α : Type} {f g : α → Bool} :
    ∀ l : List α, (∀ x ∈ l, f x = g x) → l.all f = l.all g := by
  intro l
  induction l with
  | nil => intro _; rfl
  | cons x xs ih =>
    intro h
    simp only [List.all_cons]
    rw [h x (List.mem_cons_self x xs), ih (fun y hy => h y (List.mem_cons_of_mem x hy))]

theorem skipQuoted_caseVariant {l l' : List Char} (h : CaseVariant l l') (q : Char)
    (hq : q = '"' ∨ q = '\'') :
    ∀ fuel i, skipQuoted l' fuel i q = skipQuoted l fuel i q := by
  have hql : ¬(65 ≤ q.toNat ∧ q.toNat ≤ 90) ∧ ¬(97 ≤ q.toNat ∧ q.toNat ≤ 122) := by
    rcases hq with hq | hq <;> subst hq <;> exact ⟨by decide, by decide⟩
  intro fuel
  induction fuel with
  | zero => intro i; rfl
  | succ fuel ih =>
    intro i
    rw [skipQuoted, skipQuoted]
    rcases caseVariant_getElem? h i with ⟨h1, h2⟩ | ⟨a, b, h1, h2, hab⟩
    · rw [h1, h2]
    · rw [h1, h2]
      dsimp only
      have hiff := eqIC_nonletter_iff hab q hql.1 hql.2
      by_cases haq : a = q
      · rw [if_pos haq, if_pos (hiff.mp haq)]
      · rw [if_neg haq, if_neg (fun hbq => haq (hiff.mpr hbq)), ih]

theorem nonletter_toNat_facts :
    (¬(65 ≤ '>'.toNat ∧ '>'.toNat ≤ 90) ∧ ¬(97 ≤ '>'.toNat ∧ '>'.toNat ≤ 122)) ∧
    (¬(65 ≤ '/'.toNat ∧ '/'.toNat ≤ 90) ∧ ¬(97 ≤ '/'.toNat ∧ '/'.toNat ≤ 122)) ∧
    (¬(65 ≤ '"'.toNat ∧ '"'.toNat ≤ 90) ∧ ¬(97 ≤ '"'.toNat ∧ '"'.toNat ≤ 122)) ∧
    (¬(65 ≤ '\''.toNat ∧ '\''.toNat ≤ 90) ∧ ¬(97 ≤ '\''.toNat ∧ '\''.toNat ≤ 122)) := by
  refine ⟨⟨by decide, by decide⟩, ⟨by decide, by decide⟩, ⟨by decide, by decide⟩,
    ⟨by decide, by decide⟩⟩

theorem findOpeningTagCloseScan_caseVariant {l l' : List Char} (h : CaseVariant l l') :
    ∀ fuel i, findOpeningTagCloseScan l' fuel i = findOpeningTagCloseScan l fuel i := by
  have hlen : l.length = l'.length := h.length_eq
  intro fuel
  induction fuel with
  | zero => intro i; rfl
  | succ fuel ih =>
    intro i
    rw [findOpeningTagCloseScan, findOpeningTagCloseScan]
    rcases caseVariant_getElem? h i with ⟨h1, h2⟩ | ⟨a, b, h1, h2, hab⟩
    · rw [h1, h2]
    · rw [h1, h2]
      dsimp only
      obtain ⟨hgt, hsl, hdq, hsq⟩ := nonletter_toNat_facts
      have hiffgt := eqIC_nonletter_iff hab '>' hgt.1 hgt.2
      have hiffsl := eqIC_nonletter_iff hab '/' hsl.1 hsl.2
      have hiffdq := eqIC_nonletter_iff hab '"' hdq.1 hdq.2
      have hiffsq := eqIC_nonletter_iff hab '\'' hsq.1 hsq.2
      by_cases hagt : a = '>'
      · rw [if_pos hagt, if_pos (hiffgt.mp hagt)]
      · rw [if_neg hagt, if_neg (fun hx => hagt (hiffgt.mpr hx))]
        by_cases haq : a = '"' ∨ a = '\''
        · have hbq : b = '"' ∨ b = '\'' := by
            rcases haq with hx | hx
            · exact Or.inl (hiffdq.mp hx)
            · exact Or.inr (hiffsq.mp hx)
          have hqeq : a = b := by
            rcases haq with hx | hx
            · rw [hx]
              exact (hiffdq.mp hx).symm
            · rw [hx]
              exact (hiffsq.mp hx).symm
          rw [if_pos haq, if_pos hbq, ← hqeq, ← hlen,
            skipQuoted_caseVariant h a haq]
          cases hsk : skipQuoted l (l.length + 1) (i + 1) a with
          | none => rfl
          | some k => exact ih (k + 1)
        · have hbnq : ¬(b = '"' ∨ b = '\'') := by
            intro hx
            rcases hx with hx | hx
            · exact haq (Or.inl (hiffdq.mpr hx))
            · exact haq (Or.inr (hiffsq.mpr hx))
          rw [if_neg haq, if_neg hbnq]
          by_cases hasl : a = '/'
          · rw [if_pos hasl, if_pos (hiffsl.mp hasl)]
            rcases caseVariant_getElem? h (i + 1) with ⟨h3, h4⟩ | ⟨a2, b2, h3, h4, hab2⟩
            · rw [h3, h4]
              rw [if_neg (by simp), if_neg (by simp)]
              exact ih (i + 1)
            · rw [h3, h4]
              obtain ⟨hgt2, -, -, -⟩ := nonletter_toNat_facts
              have hiff2 := eqIC_nonletter_iff hab2 '>' hgt2.1 hgt2.2
              by_cases ha2 : a2 = '>'
              · rw [if_pos (by rw [hiff2.mp ha2]), if_pos (by rw [ha2])]
              · have hb2 : ¬b2 = '>' := fun hx => ha2 (hiff2.mpr hx)
                rw [if_neg (by simp [hb2]), if_neg (by simp [ha2])]
                exact ih (i + 1)
          · rw [if_neg hasl, if_neg (fun hx => hasl (hiffsl.mpr hx))]
            exact ih (i + 1)


theorem find_tag_end_caseVariant {l l' : List Char} (h : CaseVariant l l')
    (start : Nat) (tag : List Char) :
    find_tag_end l' start tag = find_tag_end l start tag := by
  have hlen : l.length = l'.length := h.length_eq
  rw [find_tag_end, find_tag_end, ← hlen]
  have hall : ∀ x ∈ List.range tag.length,
      (fun i => match l'[start + i]?, tag[i]? with
        | some c, some t => eqIgnoreAsciiCase c t
        | _, _ => false) x =
      (fun i => match l[start + i]?, tag[i]? with
        | some c, some t => eqIgnoreAsciiCase c t
        | _, _ => false) x := by
    intro x _
    dsimp only
    rcases caseVariant_getElem? h (start + x) with ⟨h1, h2⟩ | ⟨a, b, h1, h2, hab⟩
    · rw [h1, h2]
    · rw [h1, h2]
      cases tag[x]? with
      | none => rfl
      | some t => exact eqIC_sameTest hab t |>.symm
  rw [all_congr_mem _ hall]

theorem find_opening_tag_end_caseVariant {l l' : List Char} (h : CaseVariant l l')
    (start : Nat) (tag : List Char) :
    find_opening_tag_end l' start tag = find_opening_tag_end l start tag := by
  have hlen : l.length = l'.length := h.length_eq
  rw [find_opening_tag_end, find_opening_tag_end, ← hlen]
  have hall : ∀ x ∈ List.range tag.length,
      (fun i => match l'[start + i]?, tag[i]? with
        | some c, some t => eqIgnoreAsciiCase c t
        | _, _ => false) x =
      (fun i => match l[start + i]?, tag[i]? with
        | some c, some t => eqIgnoreAsciiCase c t
        | _, _ => false) x := by
    intro x _
    dsimp only
    rcases caseVariant_getElem? h (start + x) with ⟨h1, h2⟩ | ⟨a, b, h1, h2, hab⟩
    · rw [h1, h2]
    · rw [h1, h2]
      cases tag[x]? with
      | none => rfl
      | some t => exact eqIC_sameTest hab t |>.symm
  rw [all_congr_mem _ hall]
  rcases caseVariant_getElem? h (start + tag.length) with ⟨h1, h2⟩ | ⟨a, b, h1, h2, hab⟩
  · rw [h1, h2]
    dsimp only
    rw [findOpeningTagCloseScan_caseVariant h]
  · rw [h1, h2]
    dsimp only
    have hsp := eqIC_nonletter_iff hab ' ' (by decide) (by decide)
    have htb := eqIC_nonletter_iff hab '\t' (by decide) (by decide)
    have hnl := eqIC_nonletter_iff hab '\n' (by decide) (by decide)
    have hcr := eqIC_nonletter_iff hab '\r' (by decide) (by decide)
    have hgt := eqIC_nonletter_iff hab '>' (by decide) (by decide)
    have hsl := eqIC_nonletter_iff hab '/' (by decide) (by decide)
    by_cases hcond : a = ' ' ∨ a = '\t' ∨ a = '\n' ∨ a = '\r' ∨ a = '>' ∨ a = '/'
    · have hcondb : b = ' ' ∨ b = '\t' ∨ b = '\n' ∨ b = '\r' ∨ b = '>' ∨ b = '/' := by
        rcases hcond with hx | hx | hx | hx | hx | hx
        · exact Or.inl (hsp.mp hx)
        · exact Or.inr (Or.inl (htb.mp hx))
        · exact Or.inr (Or.inr (Or.inl (hnl.mp hx)))
        · exact Or.inr (Or.inr (Or.inr (Or.inl (hcr.mp hx))))
        · exact Or.inr (Or.inr (Or.inr (Or.inr (Or.inl (hgt.mp hx)))))
        · exact Or.inr (Or.inr (Or.inr (Or.inr (Or.inr (hsl.mp hx)))))
      rw [if_pos hcondb, if_pos hcond, findOpeningTagCloseScan_caseVariant h]
    · have hcondb : ¬(b = ' ' ∨ b = '\t' ∨ b = '\n' ∨ b = '\r' ∨ b = '>' ∨ b = '/') := by
        intro hx
        apply hcond
        rcases hx with hx | hx | hx | hx | hx | hx
        · exact Or.inl (hsp.mpr hx)
        · exact Or.inr (Or.inl (htb.mpr hx))
        · exact Or.inr (Or.inr (Or.inl (hnl.mpr hx)))
        · exact Or.inr (Or.inr (Or.inr (Or.inl (hcr.mpr hx))))
        · exact Or.inr (Or.inr (Or.inr (Or.inr (Or.inl (hgt.mpr hx)))))
        · exact Or.inr (Or.inr (Or.inr (Or.inr (Or.inr (hsl.mpr hx)))))
      rw [if_neg hcondb, if_neg hcond]

/-! ## Claim theorems -/

/-- C3: the spec asserts lenient nesting — a never-closed tag that is not
in the checked set, strictly inside a properly closed top-level tag, must
not affect the verdict, so the tag check of `"<A><broken>x</A>"` with
checked tag `"A"` should succeed.  The code disagrees: both
`check_tags_closed` and `check_required_tags_exist` return `false`,
because a tracked closing tag matched at nesting depth above 1 never
decrements the top-level balance.  The third conjunct evaluates the
repository's own unit-test input (`utils/mod.rs`,
`test_check_tags_closed_top_level_logic`, which asserts
`check_tags_closed("<content><answer></content>", "content,answer")`):
the code returns `false` there too, contradicting its own test suite. -/
theorem c3_lenient_nesting_evaluation :
    check_tags_closed "<A><broken>x</A>" "A" = false ∧
    check_required_tags_exist "<A><broken>x</A>" "A" = false ∧
    check_tags_closed "<content><answer></content>" "content,answer" = false := by
  refine ⟨by decide, by decide, by decide⟩

/-- C4 (counterexample): tag-name matching is not byte-exact: the
occurrence `<DIV>` does count as a match of the required name `div` —
`find_opening_tag_end` matches it (the claim would demand `none`), and
`check_tags_closed` consequently reports the unclosed `<DIV>` as an
unbalanced `div` (the claim would demand `true`, `div` being absent). -/
theorem c4_case_insensitive_counterexample :
    find_opening_tag_end "<DIV>".toList 0 "<div".toList = some 4 ∧
    check_tags_closed "<DIV>content" "div" = false := by
  refine ⟨by decide, by decide⟩

/-- C4 (amended): tag-name matching in `find_tag_end` and
`find_opening_tag_end` is ASCII-case-insensitive (`eq_ignore_ascii_case`):
replacing the text by any pointwise ASCII-case variant leaves both
matchers' results unchanged, so an occurrence differing only in letter
case does count as a match; the terminator requirement still holds
(`<think` does not match `<thinking>`). -/
theorem c4_amended_matching_case_insensitive {chars chars' : List Char}
    (h : CaseVariant chars chars') (start : Nat) (tag : List Char) :
    find_tag_end chars' start tag = find_tag_end chars start tag ∧
    find_opening_tag_end chars' start tag = find_opening_tag_end chars start tag ∧
    find_opening_tag_end "<thinking>x".toList 0 "<think".toList = none :=
  ⟨find_tag_end_caseVariant h start tag, find_opening_tag_end_caseVariant h start tag,
    by decide⟩

/-- Witness for the amended C4 theorem at a concrete case-variant pair. -/
theorem c4_amended_matching_case_insensitive_witness :
    CaseVariant "<DIV>x".toList "<div>x".toList ∧
    find_tag_end "<div>x".toList 0 "</div>".toList =
      find_tag_end "<DIV>x".toList 0 "</div>".toList ∧
    find_opening_tag_end "<div>x".toList 0 "<div".toList =
      find_opening_tag_end "<DIV>x".toList 0 "<div".toList := by
  have hcv : CaseVariant "<DIV>x".toList "<div>x".toList := by
    refine List.Forall₂.cons (by decide) ?_
    refine List.Forall₂.cons (by decide) ?_
    refine List.Forall₂.cons (by decide) ?_
    refine List.Forall₂.cons (by decide) ?_
    refine List.Forall₂.cons (by decide) ?_
    refine List.Forall₂.cons (by decide) ?_
    exact List.Forall₂.nil
  exact ⟨hcv, (c4_amended_matching_case_insensitive hcv 0 "</div>".toList).1,
    (c4_amended_matching_case_insensitive hcv 0 "<div".toList).2.1⟩

/-- C1 (counterexample): in scenario S1 (pool `[K1, K2]`, `max_retries =
2`, upstream 429 for the attempt leasing K1 and 200 for the attempt
leasing K2, messages in program order) the final queue order is
`[K1, K2]` — K1 was rotated to the tail by its lease and then replaced in
place by the 429 `Return`, and K2 was rotated to the tail by the second
lease — not `[K2, K1]` as the claim states. -/
theorem c1_s1_pool_order_counterexample :
    (try_chat_pool 60 1000 (fun k => if k = "K1" then Upstream.http 429 else Upstream.ok)
      [⟨"K1", none⟩, ⟨"K2", none⟩] 3 none).2.map KeyStatus.key = ["K1", "K2"] ∧
    ¬((try_chat_pool 60 1000 (fun k => if k = "K1" then Upstream.http 429 else Upstream.ok)
      [⟨"K1", none⟩, ⟨"K2", none⟩] 3 none).2.map KeyStatus.key = ["K2", "K1"]) := by
  refine ⟨by decide, by decide⟩

/-- C1 (amended): scenario S1 with the pool-order conclusion corrected to
`[K1, K2]`: with pool `[K1, K2]`, `max_retries = 2` (three attempts
available), a 429 for the attempt leasing K1 and a 200 for the attempt
leasing K2, and a positive configured cooldown `d`, the handler returns
the success, K1's `cooldown_until` becomes `now + d > now`, K2's
`cooldown_until` is unchanged (`none`), and the final queue order is
`[K1, K2]`. -/
theorem c1_s1_scenario_amended (now d : Nat) (hd : 0 < d) :
    try_chat_pool d now (fun k => if k = "K1" then Upstream.http 429 else Upstream.ok)
      [⟨"K1", none⟩, ⟨"K2", none⟩] 3 none =
      (.ok (), [⟨"K1", some (now + d)⟩, ⟨"K2", none⟩]) ∧
    now < now + d :=
  ⟨rfl, by omega⟩

/-- Witness for the amended C1 theorem at `now = 1000`, `d = 60`. -/
theorem c1_s1_scenario_amended_witness :
    0 < 60 ∧
    (try_chat_pool 60 1000 (fun k => if k = "K1" then Upstream.http 429 else Upstream.ok)
      [⟨"K1", none⟩, ⟨"K2", none⟩] 3 none =
      (.ok (), [⟨"K1", some (1000 + 60)⟩, ⟨"K2", none⟩]) ∧
    1000 < 1000 + 60) :=
  ⟨by decide, c1_s1_scenario_amended 1000 60 (by decide)⟩

theorem accept_inv (st : ActorSt) (k : KeyStatus)
    (hnodup : (st.queue.map KeyStatus.key).Nodup)
    (hsync : ∀ s : String, s ∈ st.cfgKeys.map KeyStatus.key ↔ s ∈ st.queue.map KeyStatus.key) :
    ((accept st k).queue.map KeyStatus.key).Nodup ∧
    (∀ s : String, s ∈ (accept st k).cfgKeys.map KeyStatus.key ↔
      s ∈ (accept st k).queue.map KeyStatus.key) := by
  unfold accept
  by_cases hc : st.cfgKeys.any (fun x => keyEq x k)
  · rw [if_pos hc]
    exact ⟨hnodup, hsync⟩
  · rw [if_neg hc]
    unfold save
    have hnotin : k.key ∉ st.queue.map KeyStatus.key := by
      intro hmem
      rw [← hsync k.key] at hmem
      obtain ⟨x, hx, hxk⟩ := List.mem_map.mp hmem
      apply hc
      rw [List.any_eq_true]
      exact ⟨x, hx, by simp [keyEq, hxk]⟩
    constructor
    · simp only [List.map_append, List.map_cons, List.map_nil]
      apply List.Nodup.append hnodup (List.nodup_singleton _)
      intro a ha hb
      simp only [List.mem_singleton] at hb
      subst hb
      exact hnotin ha
    · intro s
      exact Iff.rfl

theorem delete_inv (st : ActorSt) (k : KeyStatus)
    (hnodup : (st.queue.map KeyStatus.key).Nodup)
    (hsync : ∀ s : String, s ∈ st.cfgKeys.map KeyStatus.key ↔ s ∈ st.queue.map KeyStatus.key) :
    (((delete st k).1).queue.map KeyStatus.key).Nodup ∧
    (∀ s : String, s ∈ ((delete st k).1).cfgKeys.map KeyStatus.key ↔
      s ∈ ((delete st k).1).queue.map KeyStatus.key) := by
  unfold delete save
  by_cases hc : (st.queue.filter (fun x => ¬ keyEq x k)).length < st.queue.length
  · rw [if_pos hc]
    refine ⟨?_, fun s => Iff.rfl⟩
    exact ((List.filter_sublist st.queue).map KeyStatus.key).nodup hnodup
  · rw [if_neg hc]
    exact ⟨hnodup, hsync⟩

/-- C7: pool uniqueness — starting from a duplicate-free queue whose
secrets agree with the config's `gemini_keys` set (the state the actor
starts in and that `save` maintains), every sequence of `Submit` and
`Delete` messages leaves each secret in the queue at most once; a
`Submit` of an already-present secret is a no-op. -/
theorem c7_pool_uniqueness (ops : List PoolOp) (st : ActorSt)
    (hnodup : (st.queue.map KeyStatus.key).Nodup)
    (hsync : ∀ s : String, s ∈ st.cfgKeys.map KeyStatus.key ↔ s ∈ st.queue.map KeyStatus.key) :
    (((runOps st ops).queue).map KeyStatus.key).Nodup := by
  induction ops generalizing st with
  | nil => exact hnodup
  | cons op ops ih =>
    cases op with
    | submit k =>
      obtain ⟨ha, hb⟩ := accept_inv st k hnodup hsync
      exact ih (accept st k) ha hb
    | del k =>
      obtain ⟨ha, hb⟩ := delete_inv st k hnodup hsync
      exact ih (delete st k).1 ha hb

/-- Witness for C7 at a concrete message sequence (a duplicate `Submit`,
a fresh `Submit` and a `Delete`). -/
theorem c7_pool_uniqueness_witness :
    ((List.map KeyStatus.key [(⟨"K1", none⟩ : KeyStatus)]).Nodup) ∧
    (((runOps ⟨[⟨"K1", none⟩], [⟨"K1", none⟩]⟩
        [.submit ⟨"K1", some 5⟩, .submit ⟨"K2", none⟩, .del ⟨"K1", none⟩]).queue).map
      KeyStatus.key).Nodup :=
  ⟨by decide,
    c7_pool_uniqueness [.submit ⟨"K1", some 5⟩, .submit ⟨"K2", none⟩, .del ⟨"K1", none⟩]
      ⟨[⟨"K1", none⟩], [⟨"K1", none⟩]⟩ (by decide) (fun s => Iff.rfl)⟩

/-- C8: the `Return(Key)` message — when a stored key with the same
secret exists (at the first such position), `collect` replaces exactly
that entry with the provided key, reports a snapshot save exactly when
the cooldown changed, and leaves the queue length and every other
position untouched; when no stored key matches, the state is returned
entirely unchanged and no save is triggered. -/
theorem c8_return_message (state : List KeyStatus) (key : KeyStatus) :
    (∀ pos old, state.findIdx? (fun k => keyEq k key) = some pos →
      state[pos]? = some old →
      collect state key = (state.set pos key, old.cooldown_until != key.cooldown_until) ∧
      (state.set pos key).length = state.length ∧
      (state.set pos key)[pos]? = some key ∧
      ∀ j : Nat, j ≠ pos → (state.set pos key)[j]? = state[j]?) ∧
    (state.findIdx? (fun k => keyEq k key) = none →
      collect state key = (state, false)) := by
  constructor
  · intro pos old hfind hold
    refine ⟨by simp [collect, hfind, hold], List.length_set .., ?_, ?_⟩
    · obtain ⟨hlt, -⟩ := List.getElem?_eq_some_iff.mp hold
      rw [List.getElem?_set, if_pos rfl, if_pos hlt]
    · intro j hj
      exact List.getElem?_set_ne (Ne.symm hj)
  · intro hnone
    simp [collect, hnone]

/-- Witness for C8 at a concrete pool, both for a matching `Return` with
a cooldown change and for an unknown key. -/
theorem c8_return_message_witness :
    (collect [⟨"K1", none⟩, ⟨"K2", none⟩] ⟨"K2", some 7⟩ =
      ([⟨"K1", none⟩, ⟨"K2", some 7⟩], true) ∧
     ([(⟨"K1", none⟩ : KeyStatus), ⟨"K2", none⟩].set 1 ⟨"K2", some 7⟩).length =
       [(⟨"K1", none⟩ : KeyStatus), ⟨"K2", none⟩].length) ∧
    collect [⟨"K1", none⟩, ⟨"K2", none⟩] ⟨"K3", some 7⟩ =
      ([⟨"K1", none⟩, ⟨"K2", none⟩], false) := by
  have h := c8_return_message [⟨"K1", none⟩, ⟨"K2", none⟩] ⟨"K2", some 7⟩
  have h1 := h.1 1 ⟨"K2", none⟩ (by decide) (by decide)
  have h2 := (c8_return_message [⟨"K1", none⟩, ⟨"K2", none⟩] ⟨"K3", some 7⟩).2 (by decide)
  exact ⟨⟨by rw [h1.1]; decide, h1.2.1⟩, h2⟩

theorem try_chat_go_attempts {β : Type} (check : β → Except CErr Unit)
    (outcomes : Nat → SendResult β) :
    ∀ fuel i err, (try_chat_go check outcomes i err fuel).2 ≤ i + fuel := by
  intro fuel
  induction fuel with
  | zero =>
    intro i err
    simp [try_chat_go]
  | succ fuel ih =>
    intro i err
    rw [try_chat_go]
    cases try_chat_step check (outcomes i) with
    | success =>
      dsimp only
      omega
    | fatal e =>
      dsimp only
      omega
    | retry e =>
      have := ih (i + 1) (some e)
      dsimp only
      omega

theorem try_chat_go_all_retry {β : Type} (check : β → Except CErr Unit)
    (outcomes : Nat → SendResult β) :
    ∀ fuel i err,
      (∀ j, j < fuel → ∃ e', try_chat_step check (outcomes (i + j)) = .retry e') →
      ∃ finalErr, try_chat_go check outcomes i err fuel = (.error finalErr, i + fuel) ∧
        (0 < fuel → try_chat_step check (outcomes (i + fuel - 1)) = .retry finalErr) ∧
        (fuel = 0 → (match err with | some e => e | none => CErr.tooManyRetries) = finalErr) := by
  intro fuel
  induction fuel with
  | zero =>
    intro i err _
    exact ⟨match err with | some e => e | none => CErr.tooManyRetries,
      by simp [try_chat_go], by omega, fun _ => rfl⟩
  | succ fuel ih =>
    intro i err hall
    obtain ⟨e0, hstep0⟩ := hall 0 (by omega)
    simp only [Nat.add_zero] at hstep0
    obtain ⟨fe, hgo, hc1, hc2⟩ := ih (i + 1) (some e0)
      (fun j hj => by
        have := hall (j + 1) (by omega)
        rwa [show i + (j + 1) = i + 1 + j by omega] at this)
    refine ⟨fe, ?_, ?_, by omega⟩
    · rw [try_chat_go]
      rw [hstep0]
      dsimp only
      rw [show i + (fuel + 1) = i + 1 + fuel by omega]
      exact hgo
    · intro _
      rcases Nat.eq_zero_or_pos fuel with hf | hf
      · subst hf
        have : e0 = fe := hc2 rfl
        subst this
        simpa using hstep0
      · have := hc1 hf
        rwa [show i + 1 + fuel - 1 = i + (fuel + 1) - 1 by omega] at this

/-- C5: for every request the retry engine performs at most
`max_retries + 1` attempts, and when every attempt fails retryably —
attempts are exhausted — it returns the last captured error (the error of
the final attempt); the `TooManyRetries` fallback covers the case where
no error was captured. -/
theorem c5_retry_budget {β : Type} (check : β → Except CErr Unit) (n : Nat)
    (outcomes : Nat → SendResult β) :
    (try_chat check n outcomes).2 ≤ n + 1 ∧
    (∀ e : CErr, (∀ i, i < n + 1 → ∃ e', try_chat_step check (outcomes i) = .retry e') →
      try_chat_step check (outcomes n) = .retry e →
      try_chat check n outcomes = (.error e, n + 1)) := by
  constructor
  · have := try_chat_go_attempts check outcomes (n + 1) 0 none
    simpa [try_chat] using this
  · intro e hall hlast
    obtain ⟨fe, hgo, hc1, -⟩ := try_chat_go_all_retry check outcomes (n + 1) 0 none
      (fun j hj => by simpa using hall j hj)
    have hstep : try_chat_step check (outcomes n) = .retry fe := by
      have := hc1 (by omega)
      simpa using this
    rw [hlast] at hstep
    injection hstep with hfe
    rw [try_chat, hgo, ← hfe]
    simp

/-- Witness for C5: two attempts, both 429, with `max_retries = 1`. -/
theorem c5_retry_budget_witness :
    (try_chat (check_empty_choices_openai "") 1
      (fun _ => SendResult.httpErr 429)).2 ≤ 2 ∧
    try_chat (check_empty_choices_openai "") 1 (fun _ => SendResult.httpErr 429) =
      (.error (.geminiHttp 429), 2) :=
  ⟨(c5_retry_budget (check_empty_choices_openai "") 1 (fun _ => SendResult.httpErr 429)).1,
   (c5_retry_budget (check_empty_choices_openai "") 1 (fun _ => SendResult.httpErr 429)).2
      (.geminiHttp 429) (fun _ _ => ⟨.geminiHttp 429, rfl⟩) rfl⟩

/-- C2 (counterexample): an attempt whose upstream call returns 2xx but
whose body fails the validity check with a JSON decode error (not
`EmptyChoices`) is NOT returned immediately as fatal: `try_chat` captures
the error, retries, and here succeeds on the second attempt — two
attempts are performed where the claim requires the engine to stop after
the first. -/
theorem c2_decode_error_retried_counterexample :
    try_chat (check_empty_choices_openai "") 1
      (fun i => if i = 0 then SendResult.ok (none : Option Json)
        else SendResult.ok (some (Json.obj [("choices", Json.arr [Json.obj
          [("message", Json.obj [("content", Json.str "hi")]),
           ("finish_reason", Json.str "stop")]])]))) = (.ok (), 2) ∧
    check_empty_choices_openai "" none = .error .jsonDecode ∧
    CErr.jsonDecode ≠ CErr.emptyChoices :=
  ⟨rfl, rfl, by decide⟩

/-- C2 (amended): in the retry engine every error of the response-validity
check — `EmptyChoices` and any other, such as a JSON decode error — is
captured as the last error and the loop continues with the next attempt;
only a non-HTTP error of the upstream call itself (`send_chat`) is
returned immediately as fatal. -/
theorem c2_amended_validator_errors_retryable {β : Type} (check : β → Except CErr Unit)
    (outcomes : Nat → SendResult β) (i fuel : Nat) (err : Option CErr) :
    (∀ body e, outcomes i = .ok body → check body = .error e →
      try_chat_go check outcomes i err (fuel + 1) =
        try_chat_go check outcomes (i + 1) (some e) fuel) ∧
    (∀ e, outcomes i = .fatal e →
      try_chat_go check outcomes i err (fuel + 1) = (.error e, i + 1)) := by
  constructor
  · intro body e hout hcheck
    rw [try_chat_go]
    simp [try_chat_step, hout, hcheck]
  · intro e hout
    rw [try_chat_go]
    simp [try_chat_step, hout]

/-- Witness for the amended C2 theorem: a decode-failing body on attempt
0 makes the loop continue with the decode error captured, and a fatal
`send_chat` error returns immediately. -/
theorem c2_amended_validator_errors_retryable_witness :
    ((fun _ => SendResult.ok (none : Option Json)) 0 = SendResult.ok none ∧
     check_empty_choices_openai "" none = .error .jsonDecode ∧
     try_chat_go (check_empty_choices_openai "") (fun _ => SendResult.ok none) 0 none 1 =
       try_chat_go (check_empty_choices_openai "") (fun _ => SendResult.ok none) 1
         (some .jsonDecode) 0) ∧
    ((fun _ => SendResult.fatal (β := Option Json) .requestCancelled) 0 =
       SendResult.fatal .requestCancelled ∧
     try_chat_go (check_empty_choices_openai "")
       (fun _ => SendResult.fatal .requestCancelled) 0 none 1 =
         (.error .requestCancelled, 1)) :=
  ⟨⟨rfl, rfl,
    (c2_amended_validator_errors_retryable (check_empty_choices_openai "")
      (fun _ => SendResult.ok none) 0 0 none).1 none .jsonDecode rfl rfl⟩,
   ⟨rfl,
    (c2_amended_validator_errors_retryable (check_empty_choices_openai "")
      (fun _ => SendResult.fatal .requestCancelled) 0 0 none).2 .requestCancelled rfl⟩⟩

/-- C6 (counterexample): with `required_tags = "A"` configured, the body
`c6Body` — whose `choices` array is present with one element and whose
first choice's `finish_reason` is `"stop"`, so neither of the claim's
conditions holds — still makes the validator signal `EmptyChoices`,
because the message content `"x"` fails the required-tags validation.
The claim's "exactly when" is therefore false. -/
theorem c6_empty_choices_exactness_counterexample :
    check_empty_choices_openai "A" (some c6Body) = .error .emptyChoices ∧
    ((c6Body.index "choices").asArray?).map List.length = some 1 ∧
    ((c6Body.index "choices").getIdx? 0).bind
      (fun c => (c.index "finish_reason").asStr?) = some "stop" ∧
    "stop" ≠ "OTHER" :=
  ⟨rfl, rfl, rfl, by decide⟩

/-- C6 (amended): for every buffered (non-streaming) 2xx body, the
validator signals `EmptyChoices` exactly when: Gemini dialect — the
candidates array is empty, or the first candidate has null content and a
finishReason other than STOP, or required tags are configured non-empty
and some text part of the first candidate fails the required-tags
validation; OpenAI dialect — the choices array is present and empty, or
the first choice's finish_reason equals `"OTHER"`, or required tags are
configured non-empty and the first choice's message content fails the
required-tags validation.  An unparseable body signals a decode error,
not `EmptyChoices`. -/
theorem c6_amended_empty_choices_iff (tags : String) :
    (∀ res : GeminiResponse,
      (check_empty_choices_gemini tags (some res) = .error .emptyChoices ↔
        (res.candidates = [] ∨
          ∃ c, res.candidates.head? = some c ∧
            ((c.content = none ∧ c.finishReason ≠ some .STOP) ∨
             (trimChars tags.toList ≠ [] ∧
              c.textParts.any (fun t => vrtFails t tags) = true))))) ∧
    (∀ v : Json,
      (check_empty_choices_openai tags (some v) = .error .emptyChoices ↔
        ((v.index "choices").asArray? = some [] ∨
         ((v.index "choices").getIdx? 0).bind (fun c => (c.index "finish_reason").asStr?) =
           some "OTHER" ∨
         (trimChars tags.toList ≠ [] ∧
          ∃ mc, ((v.index "choices").getIdx? 0).bind
              (fun c => ((c.index "message").index "content").asStr?) = some mc ∧
            vrtFails mc tags = true)))) ∧
    check_empty_choices_gemini tags none = .error .jsonDecode ∧
    check_empty_choices_openai tags none = .error .jsonDecode := by
  refine ⟨?_, ?_, rfl, rfl⟩
  · intro res
    unfold check_empty_choices_gemini
    dsimp only
    by_cases hempty : res.candidates.isEmpty
    · rw [if_pos hempty]
      rw [List.isEmpty_iff] at hempty
      exact iff_of_true rfl (Or.inl hempty)
    · rw [if_neg hempty]
      rw [List.isEmpty_iff] at hempty
      cases hhead : res.candidates.head? with
      | none =>
        rw [List.head?_eq_none_iff] at hhead
        exact absurd hhead hempty
      | some c =>
        dsimp only
        by_cases h1 : c.content.isNone ∧ c.finishReason ≠ some FinishReason.STOP
        · rw [if_pos h1]
          refine iff_of_true rfl (Or.inr ⟨c, rfl, Or.inl ⟨?_, h1.2⟩⟩)
          rw [← Option.isNone_iff_eq_none]
          exact h1.1
        · rw [if_neg h1]
          by_cases h2 : trimChars tags.toList ≠ [] ∧
              c.textParts.any (fun t => vrtFails t tags)
          · rw [if_pos h2]
            exact iff_of_true rfl (Or.inr ⟨c, rfl, Or.inr ⟨h2.1, h2.2⟩⟩)
          · rw [if_neg h2]
            refine iff_of_false (by simp) ?_
            rintro (hnil | ⟨c', hc', hdisj⟩)
            · exact hempty hnil
            · injection hc' with hcc
              subst hcc
              rcases hdisj with ⟨hcn, hfr⟩ | ⟨htags, hfail⟩
              · exact h1 ⟨Option.isNone_iff_eq_none.mpr hcn, hfr⟩
              · exact h2 ⟨htags, hfail⟩
  · intro v
    unfold check_empty_choices_openai
    dsimp only
    by_cases hA : (match (v.index "choices").asArray? with
        | some a => a.isEmpty
        | none => false) = true
    · rw [if_pos hA]
      refine iff_of_true rfl (Or.inl ?_)
      cases harr : (v.index "choices").asArray? with
      | none =>
        rw [harr] at hA
        simp at hA
      | some a =>
        rw [harr] at hA
        simp only [List.isEmpty_iff] at hA
        rw [hA]
    · rw [if_neg hA]
      by_cases hB : ((v.index "choices").getIdx? 0).bind
          (fun c => (c.index "finish_reason").asStr?) = some "OTHER"
      · rw [if_pos hB]
        exact iff_of_true rfl (Or.inr (Or.inl hB))
      · rw [if_neg hB]
        by_cases hC : trimChars tags.toList ≠ [] ∧
            (match ((v.index "choices").getIdx? 0).bind
                (fun c => ((c.index "message").index "content").asStr?) with
             | some mc => vrtFails mc tags
             | none => false) = true
        · rw [if_pos hC]
          refine iff_of_true rfl (Or.inr (Or.inr ⟨hC.1, ?_⟩))
          rcases hmc : ((v.index "choices").getIdx? 0).bind
              (fun c => ((c.index "message").index "content").asStr?) with - | mc
          · rw [hmc] at hC
            exact absurd hC.2 (by simp)
          · rw [hmc] at hC
            exact ⟨mc, rfl, hC.2⟩
        · rw [if_neg hC]
          refine iff_of_false (by simp) ?_
          rintro (hx | hx | ⟨htags, mc, hmc, hfail⟩)
          · apply hA
            rw [hx]
            rfl
          · exact hB hx
          · apply hC
            refine ⟨htags, ?_⟩
            rw [hmc]
            exact hfail

/-- Witness for the amended C6 theorem: an empty candidates array and an
empty choices array both signal `EmptyChoices` via the equivalence. -/
theorem c6_amended_empty_choices_iff_witness :
    check_empty_choices_gemini "" (some ⟨[]⟩) = .error .emptyChoices ∧
    check_empty_choices_openai "" (some (.obj [("choices", .arr [])])) =
      .error .emptyChoices :=
  ⟨((c6_amended_empty_choices_iff "").1 ⟨[]⟩).mpr (Or.inl rfl),
   ((c6_amended_empty_choices_iff "").2.1 (.obj [("choices", .arr [])])).mpr (Or.inl rfl)⟩

/-- C9: the fake-streaming body→stream conversion emits, when the content
is extractable, exactly one content chunk carrying the full content
(finish marker null), then exactly one terminal chunk whose finish marker
is `"stop"` (OpenAI, field `finish_reason`) or `"STOP"` (Gemini, field
`finishReason`), and for the OpenAI dialect one final `data: [DONE]`
frame, in that order.  The last conjuncts exhibit the markers and the
content carried by the chunks. -/
theorem c9_fake_stream_conversion (parsed : Option Json) (model : String) (ts : Nat) :
    (∀ content, openai_extract parsed = some content →
      convert_openai_to_stream parsed model ts =
        [.data (oai_content_chunk ts model content), .data (oai_final_chunk ts model),
         .done]) ∧
    (∀ content, gemini_extract parsed = some content →
      convert_gemini_to_stream parsed =
        [.data (gemini_content_chunk content), .data gemini_final_chunk]) ∧
    (∀ content, (((oai_content_chunk ts model content).index "choices").getIdx? 0).bind
      (fun c => ((c.index "delta").index "content").asStr?) = some content) ∧
    (((oai_content_chunk ts model "x").index "choices").getIdx? 0).bind
      (fun c => (c.index "finish_reason").asStr?) = none ∧
    (((oai_final_chunk ts model).index "choices").getIdx? 0).bind
      (fun c => (c.index "finish_reason").asStr?) = some "stop" ∧
    (∀ content, (((gemini_content_chunk content).index "candidates").getIdx? 0).bind
      (fun c => (((c.index "content").index "parts").getIdx? 0).bind
        (fun p => (p.index "text").asStr?)) = some content) ∧
    (((gemini_final_chunk.index "candidates").getIdx? 0).bind
      (fun c => (c.index "finishReason").asStr?)) = some "STOP" := by
  refine ⟨?_, ?_, fun content => rfl, rfl, rfl, fun content => rfl, rfl⟩
  · intro content hex
    rw [convert_openai_to_stream, hex]
  · intro content hex
    rw [convert_gemini_to_stream, hex]

/-- Witness for C9 at concrete OpenAI and Gemini bodies. -/
theorem c9_fake_stream_conversion_witness :
    openai_extract (some (Json.obj [("choices", Json.arr [Json.obj
        [("message", Json.obj [("content", Json.str "hello")])]])])) = some "hello" ∧
    convert_openai_to_stream (some (Json.obj [("choices", Json.arr [Json.obj
        [("message", Json.obj [("content", Json.str "hello")])]])])) "m" 7 =
      [.data (oai_content_chunk 7 "m" "hello"), .data (oai_final_chunk 7 "m"), .done] ∧
    gemini_extract (some (Json.obj [("candidates", Json.arr [Json.obj
        [("content", Json.obj [("parts", Json.arr [Json.obj
          [("text", Json.str "hi")]])])]])])) = some "hi" ∧
    convert_gemini_to_stream (some (Json.obj [("candidates", Json.arr [Json.obj
        [("content", Json.obj [("parts", Json.arr [Json.obj
          [("text", Json.str "hi")]])])]])])) =
      [.data (gemini_content_chunk "hi"), .data gemini_final_chunk] :=
  ⟨rfl,
   (c9_fake_stream_conversion (some (Json.obj [("choices", Json.arr [Json.obj
      [("message", Json.obj [("content", Json.str "hello")])]])])) "m" 7).1 "hello" rfl,
   rfl,
   (c9_fake_stream_conversion (some (Json.obj [("candidates", Json.arr [Json.obj
      [("content", Json.obj [("parts", Json.arr [Json.obj
        [("text", Json.str "hi")]])])]])])) "m" 7).2.1 "hi" rfl⟩

/-- C10: when the buffered body given to the fake-streaming conversion
does not parse as JSON, or lacks the first choice's `message.content`
string (OpenAI) or the first candidate's `content.parts[0].text` string
(Gemini), the conversion yields zero frames — no content chunk, no
terminal chunk and no `[DONE]` — so the client's stream ends silently
empty. -/
theorem c10_conversion_silently_empty (parsed : Option Json) (model : String) (ts : Nat) :
    (openai_extract parsed = none → convert_openai_to_stream parsed model ts = []) ∧
    (gemini_extract parsed = none → convert_gemini_to_stream parsed = []) := by
  constructor
  · intro hex
    rw [convert_openai_to_stream, hex]
  · intro hex
    rw [convert_gemini_to_stream, hex]

/-- Witness for C10: an unparseable body on the OpenAI side, and on the
Gemini side the claim's example — a null-content candidate with
`finishReason STOP`, which passes the validity check yet produces zero
frames. -/
theorem c10_conversion_silently_empty_witness :
    openai_extract none = none ∧
    convert_openai_to_stream none "m" 7 = [] ∧
    gemini_extract (some (Json.obj [("candidates", Json.arr [Json.obj
      [("finishReason", Json.str "STOP")]])])) = none ∧
    convert_gemini_to_stream (some (Json.obj [("candidates", Json.arr [Json.obj
      [("finishReason", Json.str "STOP")]])])) = [] ∧
    check_empty_choices_gemini "" (some ⟨[⟨none, some .STOP⟩]⟩) = .ok () :=
  ⟨rfl,
   (c10_conversion_silently_empty none "m" 7).1 rfl,
   rfl,
   (c10_conversion_silently_empty (some (Json.obj [("candidates", Json.arr [Json.obj
      [("finishReason", Json.str "STOP")]])])) "m" 7).2 rfl,
   rfl⟩

end Clewdr
